import Mathlib

/-!
Verification of the command-to-actuation safety pipeline of
`src/pi/motor_controller.py` (class `MotorController`).

The embedding models, directly from the Python source:

* the values `json.loads` can produce (`PyVal`), with Python numbers
  (int/float) represented as rationals;
* `parse_command`, `execute_command`, `set_motor_speed`,
  `send_serial_command`, `stop_motors` and `check_timeout`, including the
  dynamic-typing faults (`TypeError`, `AttributeError`,
  `UnicodeDecodeError`) that Python raises on ill-typed payloads and that
  the ingress loop in `run` does not catch;
* the ingress loop's handling of one datagram (`processPacket`) and runs
  of interleaved datagrams and watchdog checks (`runEvents`, `runOps`).

Wall-clock instants (`time.time()`) are modelled as rationals.  The
outcomes of the two external library calls (`bytes.decode('utf-8')` and
`json.loads`) are modelled by the `Payload` and `JsonResult` inductives:
a datagram is either not valid UTF-8 (the decode raises
`UnicodeDecodeError`), or decodes to text on which `json.loads` either
raises `JSONDecodeError` or returns a `PyVal`.  The serial write in
`send_serial_command` may raise; this is the `writeFails` flag (the
exception is caught inside `send_serial_command`, so a failing write only
suppresses the emitted hardware write).  The serial line carries
`f"M,{int(left)},{int(right)}"`; the write is modelled as the clamped
`(left, right)` pair itself.
-/

namespace MotorControllerModel

/-- Values produced by Python's `json.loads`: null, booleans, numbers
(ints and floats, modelled as rationals), strings, arrays, and objects
(dicts with string keys, in insertion order). -/
inductive PyVal where
  | pyNull : PyVal
  | pyBool (b : Bool) : PyVal
  | pyNum (q : ℚ) : PyVal
  | pyStr (s : String) : PyVal
  | pyList (l : List PyVal) : PyVal
  | pyDict (d : List (String × PyVal)) : PyVal

/-- The unhandled Python exceptions the ingress loop can let escape:
`UnicodeDecodeError` from `data.decode('utf-8')`, `TypeError` from `in`
on a non-container or from comparing a non-number in `max`/`min` or from
item assignment on a list/str, and `AttributeError` from `.get` on a
non-dict. -/
inductive PyErr where
  | unicodeDecodeError : PyErr
  | typeError : PyErr
  | attributeError : PyErr
deriving DecidableEq

/-- The mutable fields of `MotorController` that make up the motor state:
`self.current_speed`, `self.current_direction`, `self.last_command_time`. -/
structure MotorState where
  current_speed : ℚ
  current_direction : ℚ
  last_command_time : ℚ
deriving DecidableEq

/-- The configuration fields the pipeline reads:
`config['motor']['max_speed']` and `config['motor']['timeout']`. -/
structure Config where
  max_speed : ℚ
  timeout : ℚ
deriving DecidableEq

/-- Python `dict.get` on a dict built by `json.loads` (for duplicate keys
in the JSON text, the last occurrence wins). -/
def dictGet : List (String × PyVal) → String → Option PyVal
  | [], _ => none
  | (k, v) :: rest, key =>
    match dictGet rest key with
    | some w => some w
    | none => if k = key then some v else none

/-- Python `key in dict`: membership among the keys. -/
def hasKey : List (String × PyVal) → String → Bool
  | [], _ => false
  | (k, _) :: rest, key => k = key || hasKey rest key

/-- Python `needle in hay` for strings: substring test. -/
def containsSub (needle hay : String) : Bool :=
  (hay.splitOn needle).length != 1

/-- Python `elem in list` where `elem` is the string `s`: `==` against
each element, true only for an equal string. -/
def strInList (l : List PyVal) (s : String) : Bool :=
  l.any fun x => match x with | .pyStr t => t = s | _ => false

/-- The values accepted by Python's `max(-100, min(100, x))`: numbers,
and booleans (which compare as 0/1); anything else raises `TypeError`. -/
def toNum : PyVal → Option ℚ
  | .pyNum q => some q
  | .pyBool b => some (if b then 1 else 0)
  | _ => none

/-- `max(-m, min(m, x))`, the clamp pattern used in `execute_command`
(with `m = 100`) and `send_serial_command` (with `m = max_speed`). -/
def clampTo (m x : ℚ) : ℚ :=
  max (-m) (min m x)

/-- The left/right wheel pair computed inside `send_serial_command`:
`left = speed + direction`, `right = speed - direction`, each clamped to
`[-max_speed, max_speed]`. -/
def sendSerialLR (m speed direction : ℚ) : ℚ × ℚ :=
  (clampTo m (speed + direction), clampTo m (speed - direction))

/-- `send_serial_command`: computes the clamped wheel pair and writes it
to the serial port inside a `try`/`except` that catches and logs any
exception, so a failing write (`writeFails = true`) emits nothing and
raises nothing. Returns the list of hardware writes performed. -/
def sendSerialCommand (cfg : Config) (writeFails : Bool) (speed direction : ℚ) :
    List (ℚ × ℚ) :=
  if writeFails then [] else [sendSerialLR cfg.max_speed speed direction]

/-- `set_motor_speed`: stores `speed`, `direction` and the current instant
into the motor state, then sends the command to the hardware (serial
mode).  The state update happens before, and independently of, the
hardware write. -/
def setMotorSpeed (cfg : Config) (now : ℚ) (writeFails : Bool) (speed direction : ℚ) :
    MotorState × List (ℚ × ℚ) :=
  ({ current_speed := speed, current_direction := direction, last_command_time := now },
   sendSerialCommand cfg writeFails speed direction)

/-- `stop_motors`: zeroes the state fields and calls
`set_motor_speed(0, 0)` (which sets them again and refreshes the
timestamp). -/
def stopMotors (cfg : Config) (now : ℚ) (writeFails : Bool) :
    MotorState × List (ℚ × ℚ) :=
  setMotorSpeed cfg now writeFails 0 0

/-- `check_timeout`: if `elapsed > timeout` and the stored state is
nonzero, performs an emergency stop via `stop_motors`; otherwise leaves
the state alone and writes nothing. -/
def checkTimeout (cfg : Config) (now : ℚ) (writeFails : Bool) (st : MotorState) :
    MotorState × List (ℚ × ℚ) :=
  if cfg.timeout < now - st.last_command_time ∧
      (st.current_speed ≠ 0 ∨ st.current_direction ≠ 0) then
    stopMotors cfg now writeFails
  else (st, [])

/-- `execute_command` on a parsed command value.  On a dict:
`command.get('command')`, compared with `'move'` and `'stop'`; a move
reads `speed`/`direction` with default `0`, clamps them through
`max(-100, min(100, _))` — which raises `TypeError` on a non-number —
and calls `set_motor_speed`; a stop calls `stop_motors`; anything else
only logs a warning.  On a non-dict, `.get` raises `AttributeError`. -/
def executeCommand (cfg : Config) (now : ℚ) (writeFails : Bool) (command : PyVal)
    (st : MotorState) : Except PyErr (MotorState × List (ℚ × ℚ)) :=
  match command with
  | .pyDict d =>
    match dictGet d "command" with
    | some (.pyStr c) =>
      if c = "move" then
        match toNum ((dictGet d "speed").getD (.pyNum 0)),
              toNum ((dictGet d "direction").getD (.pyNum 0)) with
        | some s, some dir =>
          .ok (setMotorSpeed cfg now writeFails (clampTo 100 s) (clampTo 100 dir))
        | _, _ => .error .typeError
      else if c = "stop" then .ok (stopMotors cfg now writeFails)
      else .ok (st, [])
    | _ => .ok (st, [])
  | _ => .error .attributeError

/-- Outcome of `json.loads` on a decoded datagram: either it raises
`json.JSONDecodeError`, or it returns a value. -/
inductive JsonResult where
  | decodeError : JsonResult
  | value (v : PyVal) : JsonResult

/-- A received datagram, by the outcome of the two library calls the
ingress loop applies to it: either `data.decode('utf-8')` raises
(`badUtf8`), or it yields text on which `json.loads` is run. -/
inductive Payload where
  | badUtf8 : Payload
  | text (j : JsonResult) : Payload

/-- `parse_command`: `json.loads` inside a `try` that catches only
`JSONDecodeError` (returning `None`); then `'command' not in command`
(a `TypeError` on non-containers), then insertion of a `timestamp` field
when absent (item assignment, a `TypeError` on lists and strings). -/
def parseCommand (now : ℚ) (j : JsonResult) : Except PyErr (Option PyVal) :=
  match j with
  | .decodeError => .ok none
  | .value v =>
    match v with
    | .pyDict d =>
      if hasKey d "command" then
        if hasKey d "timestamp" then .ok (some (.pyDict d))
        else .ok (some (.pyDict (d ++ [("timestamp", .pyNum now)])))
      else .ok none
    | .pyList l =>
      if strInList l "command" then
        if strInList l "timestamp" then .ok (some (.pyList l))
        else .error .typeError
      else .ok none
    | .pyStr s =>
      if containsSub "command" s then
        if containsSub "timestamp" s then .ok (some (.pyStr s))
        else .error .typeError
      else .ok none
    | _ => .error .typeError

/-- One iteration of the ingress loop in `run` on a received datagram:
decode (uncaught `UnicodeDecodeError` on invalid UTF-8), `parse_command`,
and, when a command is returned, `execute_command`.  An `.error` result
is a Python exception escaping the loop. -/
def processPacket (cfg : Config) (now : ℚ) (writeFails : Bool) (p : Payload)
    (st : MotorState) : Except PyErr (MotorState × List (ℚ × ℚ)) :=
  match p with
  | .badUtf8 => .error .unicodeDecodeError
  | .text j =>
    match parseCommand now j with
    | .error e => .error e
    | .ok none => .ok (st, [])
    | .ok (some command) => executeCommand cfg now writeFails command st

/-- An event of the control loop: a datagram received at instant `t`, or
a `check_timeout` watchdog check at instant `t`. -/
inductive Ev where
  | recv (t : ℚ) (p : Payload) : Ev
  | tick (t : ℚ) : Ev

/-- Effect of one event on the motor state; `.error` is an unhandled
exception. -/
def stepEv (cfg : Config) (writeFails : Bool) (st : MotorState) : Ev → Except PyErr MotorState
  | .recv t p => (processPacket cfg t writeFails p st).map Prod.fst
  | .tick t => .ok (checkTimeout cfg t writeFails st).1

/-- A run of the control loop over a list of events; an unhandled
exception aborts the run. -/
def runEvents (cfg : Config) (writeFails : Bool) : MotorState → List Ev → Except PyErr MotorState
  | st, [] => .ok st
  | st, e :: es =>
    match stepEv cfg writeFails st e with
    | .ok st' => runEvents cfg writeFails st' es
    | .error er => .error er

/-- Effect of one event on the stored motor state alone; on an unhandled
exception the process dies and the stored state no longer changes, which
is modelled by keeping the state. -/
def stepOp (cfg : Config) (writeFails : Bool) (st : MotorState) (e : Ev) : MotorState :=
  match stepEv cfg writeFails st e with
  | .ok st' => st'
  | .error _ => st

/-- The stored motor state after a sequence of events, starting from
`st`. -/
def runOps (cfg : Config) (writeFails : Bool) (st : MotorState) (es : List Ev) : MotorState :=
  es.foldl (stepOp cfg writeFails) st

/-- The repeated `check_timeout` calls of the idle ingress loop (no
datagrams arriving): given the instants of the successive checks, return
the instant of the first forced stop together with the state it
installs, or `none` if no check fires. -/
def firstStop (cfg : Config) : MotorState → List ℚ → Option (ℚ × MotorState)
  | _, [] => none
  | st, t :: ts =>
    if cfg.timeout < t - st.last_command_time ∧
        (st.current_speed ≠ 0 ∨ st.current_direction ≠ 0) then
      some (t, (checkTimeout cfg t false st).1)
    else firstStop cfg (checkTimeout cfg t false st).1 ts

/-- The composite drive mapping a numeric move command goes through:
the `[-100, 100]` clamp of `execute_command` followed by the
differential mix and `[-max_speed, max_speed]` clamp of
`send_serial_command`. -/
def driveMap (m forward turn : ℚ) : ℚ × ℚ :=
  sendSerialLR m (clampTo 100 forward) (clampTo 100 turn)

/-- Two dicts that agree on every key other than `"timestamp"`. -/
def EqExceptTS (d₁ d₂ : List (String × PyVal)) : Prop :=
  ∀ k, k ≠ "timestamp" → dictGet d₁ k = dictGet d₂ k

/-- Two payloads that are equal, or are JSON objects differing only in
the value or presence of their `"timestamp"` field. -/
def PayEq (p₁ p₂ : Payload) : Prop :=
  p₁ = p₂ ∨ ∃ d₁ d₂, p₁ = .text (.value (.pyDict d₁)) ∧
    p₂ = .text (.value (.pyDict d₂)) ∧ EqExceptTS d₁ d₂

/-- Two events with the same instants whose payloads are `PayEq`. -/
def EvEq : Ev → Ev → Prop
  | .recv t₁ p₁, .recv t₂ p₂ => t₁ = t₂ ∧ PayEq p₁ p₂
  | .tick t₁, .tick t₂ => t₁ = t₂
  | _, _ => False

/-! ## Helper lemmas -/

theorem abs_clampTo_le (m x : ℚ) (hm : 0 ≤ m) : |clampTo m x| ≤ m := by
  rw [abs_le]
  exact ⟨le_max_left _ _, max_le (by linarith) (min_le_left _ _)⟩

theorem clampTo_eq_self (m x : ℚ) (h1 : -m ≤ x) (h2 : x ≤ m) : clampTo m x = x := by
  unfold clampTo
  rw [min_eq_right h2, max_eq_right h1]

theorem dictGet_append_ne (d : List (String × PyVal)) (k k' : String) (v : PyVal)
    (h : k ≠ k') : dictGet (d ++ [(k', v)]) k = dictGet d k := by
  induction d with
  | nil => simp [dictGet, Ne.symm h]
  | cons a rest ih =>
    obtain ⟨ka, va⟩ := a
    simp only [List.cons_append, dictGet, List.append_eq, ih]

theorem hasKey_eq (d : List (String × PyVal)) (k : String) :
    hasKey d k = (dictGet d k).isSome := by
  induction d with
  | nil => rfl
  | cons a rest ih =>
    obtain ⟨ka, va⟩ := a
    cases hr : dictGet rest k with
    | none =>
      by_cases hk : ka = k <;> simp [hasKey, dictGet, hr, hk, hr ▸ ih]
    | some w => simp [hasKey, dictGet, hr, hr ▸ ih]

theorem executeCommand_congr (cfg : Config) (now : ℚ) (wf : Bool) (st : MotorState)
    (d₁ d₂ : List (String × PyVal))
    (hc : dictGet d₁ "command" = dictGet d₂ "command")
    (hs : dictGet d₁ "speed" = dictGet d₂ "speed")
    (hd : dictGet d₁ "direction" = dictGet d₂ "direction") :
    executeCommand cfg now wf (.pyDict d₁) st = executeCommand cfg now wf (.pyDict d₂) st := by
  simp only [executeCommand]
  simp only [hc, hs, hd]

theorem executeCommand_extend (cfg : Config) (now now' : ℚ) (wf : Bool) (st : MotorState)
    (d : List (String × PyVal)) :
    executeCommand cfg now wf (.pyDict (d ++ [("timestamp", .pyNum now')])) st
      = executeCommand cfg now wf (.pyDict d) st :=
  executeCommand_congr cfg now wf st _ d
    (dictGet_append_ne d "command" "timestamp" _ (by decide))
    (dictGet_append_ne d "speed" "timestamp" _ (by decide))
    (dictGet_append_ne d "direction" "timestamp" _ (by decide))

/-- Normal form of an ingress-loop iteration on a JSON-object payload:
the packet is dropped when the `command` key is missing, and otherwise
the timestamp insertion of `parse_command` is invisible to
`execute_command`. -/
theorem processPacket_dict (cfg : Config) (now : ℚ) (wf : Bool) (st : MotorState)
    (d : List (String × PyVal)) :
    processPacket cfg now wf (.text (.value (.pyDict d))) st
      = if hasKey d "command" then executeCommand cfg now wf (.pyDict d) st
        else .ok (st, []) := by
  simp only [processPacket, parseCommand]
  by_cases h1 : hasKey d "command" <;> by_cases h2 : hasKey d "timestamp" <;>
    simp [h1, h2, executeCommand_extend]

/-- The motor-state outcome of `execute_command` does not depend on
whether the serial write raises. -/
theorem executeCommand_fst (cfg : Config) (now : ℚ) (v : PyVal) (st : MotorState) :
    (executeCommand cfg now true v st).map Prod.fst
      = (executeCommand cfg now false v st).map Prod.fst := by
  cases v <;> try rfl
  case pyDict d =>
    simp only [executeCommand]
    cases dictGet d "command" with
    | none => rfl
    | some c =>
      cases c <;> try rfl
      case pyStr s =>
      by_cases h1 : s = "move"
      · simp only [h1, if_pos]
        cases toNum ((dictGet d "speed").getD (.pyNum 0)) <;>
          cases toNum ((dictGet d "direction").getD (.pyNum 0)) <;> rfl
      · by_cases h2 : s = "stop" <;> simp [h1, h2, stopMotors, setMotorSpeed, Except.map]

/-- The motor-state outcome of one ingress-loop iteration does not
depend on whether the serial write raises. -/
theorem processPacket_fst (cfg : Config) (now : ℚ) (p : Payload) (st : MotorState) :
    (processPacket cfg now true p st).map Prod.fst
      = (processPacket cfg now false p st).map Prod.fst := by
  cases p with
  | badUtf8 => rfl
  | text j =>
    simp only [processPacket]
    cases hp : parseCommand now j with
    | error e => rfl
    | ok o =>
      cases o with
      | none => rfl
      | some cmd => exact executeCommand_fst cfg now cmd st

/-- Every state `execute_command` can install: unchanged, the stop state
stamped `now`, or a pair of `[-100, 100]`-clamped values stamped `now`. -/
theorem executeCommand_ok_cases {cfg : Config} {now : ℚ} {wf : Bool} {v : PyVal}
    {st st' : MotorState} {ws : List (ℚ × ℚ)}
    (h : executeCommand cfg now wf v st = .ok (st', ws)) :
    st' = st ∨ st' = ⟨0, 0, now⟩ ∨
      ∃ s d, st' = ⟨clampTo 100 s, clampTo 100 d, now⟩ := by
  cases v <;> simp only [executeCommand] at h <;> try exact absurd h (by simp)
  case pyDict d =>
    split at h
    · split at h
      · split at h
        · simp only [setMotorSpeed, Except.ok.injEq, Prod.mk.injEq] at h
          exact Or.inr (Or.inr ⟨_, _, h.1.symm⟩)
        · exact absurd h (by simp)
      · split at h
        · simp only [stopMotors, setMotorSpeed, Except.ok.injEq, Prod.mk.injEq] at h
          exact Or.inr (Or.inl h.1.symm)
        · simp only [Except.ok.injEq, Prod.mk.injEq] at h
          exact Or.inl h.1.symm
    · simp only [Except.ok.injEq, Prod.mk.injEq] at h
      exact Or.inl h.1.symm

/-- Every state an ingress-loop iteration can leave behind. -/
theorem processPacket_ok_cases {cfg : Config} {now : ℚ} {wf : Bool} {p : Payload}
    {st st' : MotorState} {ws : List (ℚ × ℚ)}
    (h : processPacket cfg now wf p st = .ok (st', ws)) :
    st' = st ∨ st' = ⟨0, 0, now⟩ ∨
      ∃ s d, st' = ⟨clampTo 100 s, clampTo 100 d, now⟩ := by
  cases p with
  | badUtf8 => exact absurd h (by simp [processPacket])
  | text j =>
    simp only [processPacket] at h
    split at h
    · exact absurd h (by simp)
    · simp only [Except.ok.injEq, Prod.mk.injEq] at h
      exact Or.inl h.1.symm
    · exact executeCommand_ok_cases h

/-- Every state one control-loop event can leave behind. -/
theorem stepOp_cases (cfg : Config) (wf : Bool) (st : MotorState) (e : Ev) :
    stepOp cfg wf st e = st ∨ (∃ t, stepOp cfg wf st e = ⟨0, 0, t⟩) ∨
      ∃ s d t, stepOp cfg wf st e = ⟨clampTo 100 s, clampTo 100 d, t⟩ := by
  cases e with
  | tick t =>
    simp only [stepOp, stepEv, checkTimeout]
    split
    · exact Or.inr (Or.inl ⟨t, rfl⟩)
    · exact Or.inl rfl
  | recv t p =>
    simp only [stepOp, stepEv]
    cases hp : processPacket cfg t wf p st with
    | error e => simp [hp, Except.map]
    | ok pr =>
      obtain ⟨st1, ws1⟩ := pr
      simp only [hp, Except.map]
      rcases processPacket_ok_cases hp with h | h | ⟨s, d, h⟩
      · exact Or.inl h
      · exact Or.inr (Or.inl ⟨t, h⟩)
      · exact Or.inr (Or.inr ⟨s, d, t, h⟩)

theorem stepOp_bound (cfg : Config) (wf : Bool) (st : MotorState) (e : Ev)
    (h : |st.current_speed| ≤ 100 ∧ |st.current_direction| ≤ 100) :
    |(stepOp cfg wf st e).current_speed| ≤ 100 ∧
      |(stepOp cfg wf st e).current_direction| ≤ 100 := by
  rcases stepOp_cases cfg wf st e with h1 | ⟨t, h1⟩ | ⟨s, d, t, h1⟩ <;> rw [h1]
  · exact h
  · norm_num
  · exact ⟨abs_clampTo_le _ _ (by norm_num), abs_clampTo_le _ _ (by norm_num)⟩

theorem runOps_bound (cfg : Config) (wf : Bool) (es : List Ev) :
    ∀ st : MotorState, |st.current_speed| ≤ 100 ∧ |st.current_direction| ≤ 100 →
      |(runOps cfg wf st es).current_speed| ≤ 100 ∧
        |(runOps cfg wf st es).current_direction| ≤ 100 := by
  induction es with
  | nil => exact fun st h => h
  | cons e es ih =>
    intro st h
    exact ih (stepOp cfg wf st e) (stepOp_bound cfg wf st e h)

/-- Packets related by `PayEq` are processed identically. -/
theorem processPacket_payeq (cfg : Config) (t : ℚ) (wf : Bool) (st : MotorState)
    {p₁ p₂ : Payload} (h : PayEq p₁ p₂) :
    processPacket cfg t wf p₁ st = processPacket cfg t wf p₂ st := by
  rcases h with rfl | ⟨d₁, d₂, rfl, rfl, hts⟩
  · rfl
  · have hck : dictGet d₁ "command" = dictGet d₂ "command" := hts _ (by decide)
    have hkey : hasKey d₁ "command" = hasKey d₂ "command" := by
      rw [hasKey_eq, hasKey_eq, hck]
    rw [processPacket_dict, processPacket_dict, hkey]
    by_cases hk : hasKey d₂ "command"
    · rw [if_pos hk, if_pos hk]
      exact executeCommand_congr cfg t wf st d₁ d₂ hck (hts _ (by decide)) (hts _ (by decide))
    · rw [if_neg hk, if_neg hk]

theorem stepEv_eveq (cfg : Config) (wf : Bool) (st : MotorState) {e₁ e₂ : Ev}
    (h : EvEq e₁ e₂) : stepEv cfg wf st e₁ = stepEv cfg wf st e₂ := by
  cases e₁ <;> cases e₂ <;> simp only [EvEq] at h
  · obtain ⟨rfl, hp⟩ := h
    simp only [stepEv, processPacket_payeq cfg _ wf st hp]
  · exact h ▸ rfl

/-- Deadline induction: along a tick sequence whose gaps are at most `P`
and that starts no later than `t0 + timeout`, the first firing check is
the first tick past `t0 + timeout`, hence lands within `P` of it. -/
theorem firstStop_deadline_aux (cfg : Config) (P t0 s d : ℚ)
    (hmove : ¬(s = 0 ∧ d = 0)) :
    ∀ (c : ℚ) (ts : List ℚ), c ≤ t0 + cfg.timeout →
      List.Chain (fun a b => a < b ∧ b ≤ a + P) c ts →
      (∃ t ∈ ts, t0 + cfg.timeout < t) →
      ∃ t, firstStop cfg ⟨s, d, t0⟩ ts = some (t, ⟨0, 0, t⟩) ∧
        t0 + cfg.timeout < t ∧ t ≤ t0 + cfg.timeout + P := by
  intro c ts
  induction ts generalizing c with
  | nil =>
    rintro _ _ ⟨t, ht, _⟩
    simp at ht
  | cons t ts ih =>
    rintro hc (_ | ⟨⟨hlt, hle⟩, hchain⟩) hex
    by_cases hfire : t0 + cfg.timeout < t
    · have hcond : cfg.timeout < t - (⟨s, d, t0⟩ : MotorState).last_command_time ∧
          ((⟨s, d, t0⟩ : MotorState).current_speed ≠ 0 ∨
            (⟨s, d, t0⟩ : MotorState).current_direction ≠ 0) := by
        refine ⟨by dsimp; linarith, ?_⟩
        dsimp
        exact not_and_or.mp hmove
      refine ⟨t, ?_, hfire, by linarith⟩
      rw [firstStop, if_pos hcond]
      have hst : (checkTimeout cfg t false ⟨s, d, t0⟩).1 = ⟨0, 0, t⟩ := by
        rw [checkTimeout, if_pos hcond]
        rfl
      rw [hst]
    · have hnof : ¬(cfg.timeout < t - (⟨s, d, t0⟩ : MotorState).last_command_time ∧
          ((⟨s, d, t0⟩ : MotorState).current_speed ≠ 0 ∨
            (⟨s, d, t0⟩ : MotorState).current_direction ≠ 0)) := by
        rintro ⟨h1, _⟩
        dsimp at h1
        exact hfire (by linarith)
      rw [firstStop, if_neg hnof]
      have hst : (checkTimeout cfg t false ⟨s, d, t0⟩).1 = ⟨s, d, t0⟩ := by
        rw [checkTimeout, if_neg hnof]
      rw [hst]
      refine ih t (by linarith) hchain ?_
      rcases hex with ⟨t', ht'mem, ht'⟩
      rcases List.mem_cons.mp ht'mem with rfl | hmem
      · exact absurd ht' hfire
      · exact ⟨t', hmem, ht'⟩

/-! ## Claim theorems -/

/-- Claim C1 (deadline property): with `timeout = T > 0` and poll
interval `P > 0`, if the last accepted command left a nonzero state at
instant `t0` and the idle loop's `check_timeout` ticks happen at
instants that follow each other within `P` (starting within `P` of
`t0`), with some tick falling after `t0 + T`, then the first forced stop
happens at an instant `t` with `t0 + T < t ≤ t0 + T + P`, and it sets
the motor state to `(0, 0)` stamped `t`. -/
theorem c1_deadline (cfg : Config) (P t0 s d : ℚ) (hT : 0 < cfg.timeout) (hP : 0 < P)
    (hmove : ¬(s = 0 ∧ d = 0)) (ts : List ℚ)
    (hchain : List.Chain (fun a b => a < b ∧ b ≤ a + P) t0 ts)
    (hpast : ∃ t ∈ ts, t0 + cfg.timeout < t) :
    ∃ t, firstStop cfg ⟨s, d, t0⟩ ts = some (t, ⟨0, 0, t⟩) ∧
      t0 + cfg.timeout < t ∧ t ≤ t0 + cfg.timeout + P :=
  firstStop_deadline_aux cfg P t0 s d hmove t0 ts (by linarith) hchain hpast

/-- Witness for C1 at `timeout = 1`, `P = 1`, `t0 = 0`, state `(50, 0)`,
ticks at instants `1` and `2`. -/
theorem c1_witness :
    ∃ t, firstStop ⟨100, 1⟩ ⟨50, 0, 0⟩ [1, 2] = some (t, ⟨0, 0, t⟩) ∧
      (0 : ℚ) + 1 < t ∧ t ≤ 0 + 1 + 1 :=
  c1_deadline ⟨100, 1⟩ 1 0 50 0 (by norm_num) (by norm_num) (by norm_num) [1, 2]
    (by
      refine List.Chain.cons ⟨?_, ?_⟩ (List.Chain.cons ⟨?_, ?_⟩ List.Chain.nil) <;>
        norm_num)
    ⟨2, by simp, by norm_num⟩

/-- Claim C2 (clamp property): for integer `forward, turn ∈ [-1000, 1000]`
and any `max_speed > 0`, the wheel speeds produced by the drive mapping
(the `[-100, 100]` clamp of `execute_command` followed by the
differential mix and clamp of `send_serial_command`) are bounded by
`max_speed` in absolute value. -/
theorem c2_clamp (m : ℚ) (f t : ℤ) (hm : 0 < m)
    (hf1 : -1000 ≤ f) (hf2 : f ≤ 1000) (ht1 : -1000 ≤ t) (ht2 : t ≤ 1000) :
    |(driveMap m (f : ℚ) (t : ℚ)).1| ≤ m ∧ |(driveMap m (f : ℚ) (t : ℚ)).2| ≤ m := by
  unfold driveMap sendSerialLR
  exact ⟨abs_clampTo_le _ _ hm.le, abs_clampTo_le _ _ hm.le⟩

/-- Witness for C2 at `max_speed = 7`, `forward = 500`, `turn = -3`. -/
theorem c2_witness :
    |(driveMap 7 ((500 : ℤ) : ℚ) (((-3) : ℤ) : ℚ)).1| ≤ 7 ∧
      |(driveMap 7 ((500 : ℤ) : ℚ) (((-3) : ℤ) : ℚ)).2| ≤ 7 :=
  c2_clamp 7 500 (-3) (by norm_num) (by norm_num) (by norm_num) (by norm_num)
    (by norm_num)

/-- Claim C4 (differential-drive mixing): for a move command whose fields
are already inside `[-100, 100]` (numeric), the mapped wheel speeds are
`left = forward + turn` and `right = forward - turn`, each clamped to
`[-max_speed, max_speed]`. -/
theorem c4_differential (m : ℚ) (f t : ℤ)
    (hf1 : -100 ≤ f) (hf2 : f ≤ 100) (ht1 : -100 ≤ t) (ht2 : t ≤ 100) :
    driveMap m (f : ℚ) (t : ℚ)
      = (clampTo m ((f : ℚ) + (t : ℚ)), clampTo m ((f : ℚ) - (t : ℚ))) := by
  unfold driveMap sendSerialLR
  rw [clampTo_eq_self 100 (f : ℚ) (by exact_mod_cast hf1) (by exact_mod_cast hf2),
    clampTo_eq_self 100 (t : ℚ) (by exact_mod_cast ht1) (by exact_mod_cast ht2)]

/-- Witness for C4: with `max_speed = 100` and no inversion,
`Move(50, 30)` maps to `(80, 20)` and `Move(90, 40)` maps to
`(100, 50)` (raw left `130` clamped to `100`). -/
theorem c4_witness :
    driveMap 100 50 30 = (80, 20) ∧ driveMap 100 90 40 = (100, 50) := by
  have h1 := c4_differential 100 50 30 (by norm_num) (by norm_num) (by norm_num)
    (by norm_num)
  have h2 := c4_differential 100 90 40 (by norm_num) (by norm_num) (by norm_num)
    (by norm_num)
  push_cast at h1 h2
  rw [h1, h2]
  constructor <;> simp [clampTo] <;> norm_num

/-- Claim C5 (watchdog zero-velocity exemption and no re-fire):
`check_timeout` leaves the state alone and writes nothing when the state
is `(0, 0)` or when `elapsed ≤ timeout`; when it fires it installs
`(0, 0)` stamped with the current instant, after which no later check
(with no intervening command) ever changes the state or writes to the
hardware again. -/
theorem c5_watchdog (cfg : Config) (wf : Bool) (st : MotorState) (now : ℚ) :
    (st.current_speed = 0 ∧ st.current_direction = 0 →
      checkTimeout cfg now wf st = (st, [])) ∧
    (now - st.last_command_time ≤ cfg.timeout →
      checkTimeout cfg now wf st = (st, [])) ∧
    (cfg.timeout < now - st.last_command_time →
      ¬(st.current_speed = 0 ∧ st.current_direction = 0) →
      (checkTimeout cfg now wf st).1 = ⟨0, 0, now⟩ ∧
        ∀ t', checkTimeout cfg t' wf (checkTimeout cfg now wf st).1 =
          ((checkTimeout cfg now wf st).1, [])) := by
  refine ⟨?_, ?_, ?_⟩
  · rintro ⟨h1, h2⟩
    rw [checkTimeout, if_neg]
    rintro ⟨_, h3 | h3⟩
    exacts [h3 h1, h3 h2]
  · intro hle
    rw [checkTimeout, if_neg]
    rintro ⟨hgt, _⟩
    linarith
  · intro hgt hnz
    have hcond : cfg.timeout < now - st.last_command_time ∧
        (st.current_speed ≠ 0 ∨ st.current_direction ≠ 0) := ⟨hgt, not_and_or.mp hnz⟩
    have h1 : (checkTimeout cfg now wf st).1 = ⟨0, 0, now⟩ := by
      rw [checkTimeout, if_pos hcond]
      rfl
    refine ⟨h1, fun t' => ?_⟩
    rw [h1, checkTimeout, if_neg]
    rintro ⟨_, h3 | h3⟩ <;> exact h3 rfl

/-- Witness for C5: a fired check at instant `2` on state `(50, 0)` last
updated at `0` (timeout `1`) installs `(0, 0, 2)`, and a later check at
instant `5` changes nothing and writes nothing. -/
theorem c5_witness :
    (checkTimeout ⟨100, 1⟩ 2 false ⟨50, 0, 0⟩).1 = ⟨0, 0, 2⟩ ∧
      checkTimeout ⟨100, 1⟩ 5 false ⟨0, 0, 2⟩ = (⟨0, 0, 2⟩, []) := by
  have h := (c5_watchdog ⟨100, 1⟩ false ⟨50, 0, 0⟩ 2).2.2 (by norm_num) (by norm_num)
  refine ⟨h.1, ?_⟩
  have h5 := h.2 5
  rwa [h.1] at h5

/-- Counterexample to C3 as stated: three datagram payloads whose
processing raises an unhandled exception out of the ingress loop — a
non-UTF-8 byte sequence (e.g. `b"\xff"`), the JSON text `5` (a decoded
non-object on which `'command' not in command` raises `TypeError`), and
the object `{"command": "move", "speed": "fast"}` (a non-numeric speed
raises `TypeError` inside `max(-100, min(100, speed))`). -/
theorem c3_cex :
    processPacket ⟨100, 1⟩ 0 false .badUtf8 ⟨0, 0, 0⟩ = .error .unicodeDecodeError ∧
    processPacket ⟨100, 1⟩ 0 false (.text (.value (.pyNum 5))) ⟨0, 0, 0⟩
      = .error .typeError ∧
    processPacket ⟨100, 1⟩ 0 false
        (.text (.value (.pyDict [("command", .pyStr "move"), ("speed", .pyStr "fast")])))
        ⟨0, 0, 0⟩
      = .error .typeError :=
  ⟨rfl, rfl, rfl⟩

/-- Claim C3 amended: robustness holds for the payloads the loop actually
handles — a payload on which `json.loads` fails is dropped with the
state untouched, a JSON object without a `command` key is dropped with
the state untouched, and a JSON object whose `speed`/`direction` are
numeric (or absent) when `command` is `"move"` is processed without any
unhandled fault. -/
theorem c3_amended (cfg : Config) (now : ℚ) (wf : Bool) (st : MotorState) :
    (processPacket cfg now wf (.text .decodeError) st = .ok (st, [])) ∧
    (∀ d, hasKey d "command" = false →
      processPacket cfg now wf (.text (.value (.pyDict d))) st = .ok (st, [])) ∧
    (∀ d, (dictGet d "command" = some (.pyStr "move") →
        (toNum ((dictGet d "speed").getD (.pyNum 0))).isSome ∧
        (toNum ((dictGet d "direction").getD (.pyNum 0))).isSome) →
      ∃ r, processPacket cfg now wf (.text (.value (.pyDict d))) st = .ok r) := by
  refine ⟨rfl, ?_, ?_⟩
  · intro d hk
    rw [processPacket_dict, if_neg (by simp [hk])]
  · intro d hnum
    rw [processPacket_dict]
    by_cases hk : hasKey d "command" = true
    · rw [if_pos hk]
      cases hc : dictGet d "command" with
      | none => exact ⟨(st, []), by simp [executeCommand, hc]⟩
      | some c =>
        cases c with
        | pyNull => exact ⟨(st, []), by simp [executeCommand, hc]⟩
        | pyBool b => exact ⟨(st, []), by simp [executeCommand, hc]⟩
        | pyNum q => exact ⟨(st, []), by simp [executeCommand, hc]⟩
        | pyList l => exact ⟨(st, []), by simp [executeCommand, hc]⟩
        | pyDict dd => exact ⟨(st, []), by simp [executeCommand, hc]⟩
        | pyStr s =>
        by_cases h1 : s = "move"
        · subst h1
          obtain ⟨hs, hd⟩ := hnum hc
          obtain ⟨sv, hsv⟩ := Option.isSome_iff_exists.mp hs
          obtain ⟨dv, hdv⟩ := Option.isSome_iff_exists.mp hd
          exact ⟨setMotorSpeed cfg now wf (clampTo 100 sv) (clampTo 100 dv),
            by simp [executeCommand, hc, hsv, hdv]⟩
        · by_cases h2 : s = "stop"
          · subst h2
            exact ⟨stopMotors cfg now wf, by simp [executeCommand, hc]⟩
          · exact ⟨(st, []), by simp [executeCommand, hc, h1, h2]⟩
    · rw [if_neg hk]
      exact ⟨(st, []), rfl⟩

/-- Witness for C3 (amended): a JSON object without a `command` key is
dropped with the state untouched. -/
theorem c3_witness :
    processPacket ⟨100, 1⟩ 0 false (.text (.value (.pyDict [("x", .pyNull)]))) ⟨7, 3, 2⟩
      = .ok (⟨7, 3, 2⟩, []) :=
  (c3_amended ⟨100, 1⟩ 0 false ⟨7, 3, 2⟩).2.1 [("x", .pyNull)] rfl

/-- Claim C6 (payload-timestamp noninterference): two event sequences
that agree on arrival instants and on every payload field except the
value or presence of a payload-supplied `timestamp` field produce
identical runs — identical motor states after every step (and hence
identical watchdog staleness decisions, which read only the state). -/
theorem c6_noninterference (cfg : Config) (wf : Bool) (st : MotorState)
    {es₁ es₂ : List Ev} (h : List.Forall₂ EvEq es₁ es₂) :
    runEvents cfg wf st es₁ = runEvents cfg wf st es₂ := by
  induction h generalizing st with
  | nil => rfl
  | @cons a b l₁ l₂ he htail ih =>
    simp only [runEvents]
    rw [stepEv_eveq cfg wf st he]
    cases hst : stepEv cfg wf st b with
    | ok st' => simp only [hst]; exact ih st'
    | error er => simp only [hst]

/-- Witness for C6: a run whose move command carries
`"timestamp": 99` and one without the field, each followed by a
watchdog check, end in the same state. -/
theorem c6_witness :
    runEvents ⟨100, 1⟩ false ⟨0, 0, 0⟩
        [.recv 1 (.text (.value (.pyDict
          [("command", .pyStr "move"), ("speed", .pyNum 40), ("timestamp", .pyNum 99)]))),
         .tick 3]
      = runEvents ⟨100, 1⟩ false ⟨0, 0, 0⟩
        [.recv 1 (.text (.value (.pyDict
          [("command", .pyStr "move"), ("speed", .pyNum 40)]))),
         .tick 3] := by
  refine c6_noninterference ⟨100, 1⟩ false ⟨0, 0, 0⟩ ?_
  refine List.Forall₂.cons ⟨rfl, Or.inr ⟨_, _, rfl, rfl, ?_⟩⟩
    (List.Forall₂.cons rfl List.Forall₂.nil)
  intro k hk
  by_cases h1 : k = "command" <;> by_cases h2 : k = "speed" <;>
    simp [dictGet, h1, h2, Ne.symm hk]

/-- Claim C7 (hardware write failure does not roll back state): for every
packet, the motor state after processing is the same whether the serial
write raises or succeeds, and `set_motor_speed` installs exactly the
commanded values and instant even when the write fails. -/
theorem c7_write_failure (cfg : Config) (now : ℚ) (p : Payload) (st : MotorState) :
    (processPacket cfg now true p st).map Prod.fst
        = (processPacket cfg now false p st).map Prod.fst ∧
      ∀ s d : ℚ, (setMotorSpeed cfg now true s d).1 = ⟨s, d, now⟩ :=
  ⟨processPacket_fst cfg now p st, fun _ _ => rfl⟩

/-- Counterexample to C8 as stated: the payload
`{"command": "move", "speed": "fast"}` has a non-numeric value in an
expected-numeric field, yet `parse_command` accepts it (returning the
command with a timestamp added, not a parse error); the fault surfaces
later as an uncaught `TypeError` when `execute_command` clamps the
value. -/
theorem c8_cex :
    parseCommand 0 (.value (.pyDict [("command", .pyStr "move"), ("speed", .pyStr "fast")]))
      = .ok (some (.pyDict
          [("command", .pyStr "move"), ("speed", .pyStr "fast"), ("timestamp", .pyNum 0)])) ∧
    processPacket ⟨100, 1⟩ 0 false
        (.text (.value (.pyDict [("command", .pyStr "move"), ("speed", .pyStr "fast")])))
        ⟨0, 0, 0⟩
      = .error .typeError :=
  ⟨rfl, rfl⟩

/-- Claim C8 amended: missing numeric fields default to `0` — a move
object with `speed` absent is executed with speed `0`, one with
`direction` absent is executed with direction `0`, and one with both
absent (in particular the bare `{"command": "move"}`) yields the stopped
mapping, state `(0, 0)` and a `(0, 0)` hardware write; but a non-numeric
value in either expected-numeric field (`speed` or `direction`) is not a
`ParseError`: the command passes parsing and raises an uncaught
`TypeError` during clamping (it is not executed, and the fault escapes
the loop). -/
theorem c8_amended (cfg : Config) (now : ℚ) (st : MotorState) (hm : 0 < cfg.max_speed) :
    (∀ d, dictGet d "command" = some (.pyStr "move") →
      dictGet d "speed" = none → dictGet d "direction" = none →
      processPacket cfg now false (.text (.value (.pyDict d))) st
        = .ok (⟨0, 0, now⟩, [(0, 0)])) ∧
    (∀ d dv, dictGet d "command" = some (.pyStr "move") →
      dictGet d "speed" = none →
      toNum ((dictGet d "direction").getD (.pyNum 0)) = some dv →
      (processPacket cfg now false (.text (.value (.pyDict d))) st).map Prod.fst
        = .ok ⟨0, clampTo 100 dv, now⟩) ∧
    (∀ d sv, dictGet d "command" = some (.pyStr "move") →
      toNum ((dictGet d "speed").getD (.pyNum 0)) = some sv →
      dictGet d "direction" = none →
      (processPacket cfg now false (.text (.value (.pyDict d))) st).map Prod.fst
        = .ok ⟨clampTo 100 sv, 0, now⟩) ∧
    (∀ d, dictGet d "command" = some (.pyStr "move") →
      (toNum ((dictGet d "speed").getD (.pyNum 0)) = none ∨
        toNum ((dictGet d "direction").getD (.pyNum 0)) = none) →
      (∃ v, parseCommand now (.value (.pyDict d)) = .ok (some v)) ∧
        processPacket cfg now false (.text (.value (.pyDict d))) st
          = .error .typeError) := by
  have hz100 : clampTo 100 0 = 0 := clampTo_eq_self 100 0 (by norm_num) (by norm_num)
  have hzm : clampTo cfg.max_speed 0 = 0 :=
    clampTo_eq_self _ 0 (by linarith) (by linarith)
  have hkey : ∀ d : List (String × PyVal), dictGet d "command" = some (.pyStr "move") →
      hasKey d "command" = true := by
    intro d hc
    rw [hasKey_eq, hc]
    rfl
  refine ⟨?_, ?_, ?_, ?_⟩
  · intro d hc hs hd
    rw [processPacket_dict, if_pos (hkey d hc)]
    simp [executeCommand, hc, hs, hd, toNum, setMotorSpeed, sendSerialCommand,
      sendSerialLR, hz100, hzm, sub_self]
  · intro d dv hc hs hdv
    rw [processPacket_dict, if_pos (hkey d hc)]
    have ht0 : toNum (.pyNum 0) = some 0 := rfl
    simp [executeCommand, hc, hs, hdv, ht0, setMotorSpeed, hz100, Except.map]
  · intro d sv hc hsv hd
    rw [processPacket_dict, if_pos (hkey d hc)]
    have ht0 : toNum (.pyNum 0) = some 0 := rfl
    simp [executeCommand, hc, hd, hsv, ht0, setMotorSpeed, hz100, Except.map]
  · intro d hc hnn
    constructor
    · by_cases ht : hasKey d "timestamp" = true
      · exact ⟨.pyDict d, by simp [parseCommand, hkey d hc, ht]⟩
      · exact ⟨.pyDict (d ++ [("timestamp", .pyNum now)]),
          by simp [parseCommand, hkey d hc, ht]⟩
    · rw [processPacket_dict, if_pos (hkey d hc)]
      rcases hnn with hs | hd
      · cases hd2 : toNum ((dictGet d "direction").getD (.pyNum 0)) <;>
          simp [executeCommand, hc, hs, hd2]
      · cases hs2 : toNum ((dictGet d "speed").getD (.pyNum 0)) <;>
          simp [executeCommand, hc, hd, hs2]

/-- Witness for C8 (amended): a bare move stops the motors; a move with
numeric speed and string direction, and one with string speed, both pass
parsing but fault with `TypeError`; a move with only a direction field
defaults the speed to `0`. -/
theorem c8_witness :
    (processPacket ⟨100, 1⟩ 7 false (.text (.value (.pyDict [("command", .pyStr "move")])))
        ⟨5, 5, 0⟩
      = .ok (⟨0, 0, 7⟩, [(0, 0)])) ∧
    ((processPacket ⟨100, 1⟩ 7 false
        (.text (.value (.pyDict [("command", .pyStr "move"), ("direction", .pyNum 20)])))
        ⟨5, 5, 0⟩).map Prod.fst
      = .ok ⟨0, clampTo 100 20, 7⟩) ∧
    (processPacket ⟨100, 1⟩ 7 false
        (.text (.value (.pyDict
          [("command", .pyStr "move"), ("speed", .pyNum 3), ("direction", .pyStr "x")])))
        ⟨5, 5, 0⟩
      = .error .typeError) ∧
    (processPacket ⟨100, 1⟩ 7 false
        (.text (.value (.pyDict [("command", .pyStr "move"), ("speed", .pyStr "fast")])))
        ⟨5, 5, 0⟩
      = .error .typeError) := by
  have h := c8_amended ⟨100, 1⟩ 7 ⟨5, 5, 0⟩ (by norm_num)
  refine ⟨h.1 [("command", .pyStr "move")] rfl rfl rfl, ?_, ?_, ?_⟩
  · exact h.2.1 [("command", .pyStr "move"), ("direction", .pyNum 20)] 20 rfl rfl rfl
  · exact (h.2.2.2
      [("command", .pyStr "move"), ("speed", .pyNum 3), ("direction", .pyStr "x")]
      rfl (Or.inr rfl)).2
  · exact (h.2.2.2 [("command", .pyStr "move"), ("speed", .pyStr "fast")]
      rfl (Or.inl rfl)).2

/-- Counterexample to C9 as stated: with `max_speed = 50` (a valid
`speed_limit > 0`), the single accepted command
`{"command": "move", "speed": 80}` leaves the stored motor state at
`(80, 0)` — the stored state is clamped to the hard-coded `[-100, 100]`,
not to `max_speed`, so `|current_speed| ≤ 50` fails. -/
theorem c9_cex :
    runOps ⟨50, 1⟩ false ⟨0, 0, 0⟩
        [.recv 1 (.text (.value (.pyDict [("command", .pyStr "move"), ("speed", .pyNum 80)])))]
      = ⟨80, 0, 1⟩ ∧ ¬(|(80 : ℚ)| ≤ (50 : ℚ)) := by
  refine ⟨rfl, fun h => ?_⟩
  rw [abs_of_nonneg (by norm_num)] at h
  linarith

/-- Claim C9 amended: after any sequence of received packets and watchdog
checks starting from the initial `(0, 0)` state, the stored motor state
satisfies the hard-coded bound `|current_speed| ≤ 100` and
`|current_direction| ≤ 100` (the `max_speed` bound applies to the wheel
values written to the hardware, not to the stored state). -/
theorem c9_amended (cfg : Config) (wf : Bool) (t0 : ℚ) (es : List Ev) :
    |(runOps cfg wf ⟨0, 0, t0⟩ es).current_speed| ≤ 100 ∧
      |(runOps cfg wf ⟨0, 0, t0⟩ es).current_direction| ≤ 100 :=
  runOps_bound cfg wf es ⟨0, 0, t0⟩ (by norm_num)

/-- Claim C10 (unknown commands are a no-op frame): a successfully parsed
dict whose `command` value is neither `"move"` nor `"stop"` leaves the
whole motor state — including `last_command_time` — unchanged and writes
nothing, so it cannot refresh the watchdog window. -/
theorem c10_unknown (cfg : Config) (now : ℚ) (wf : Bool) (st : MotorState)
    (d : List (String × PyVal)) (c : PyVal) (h1 : dictGet d "command" = some c)
    (h2 : c ≠ .pyStr "move") (h3 : c ≠ .pyStr "stop") :
    processPacket cfg now wf (.text (.value (.pyDict d))) st = .ok (st, []) := by
  have hk : hasKey d "command" = true := by
    rw [hasKey_eq, h1]
    rfl
  rw [processPacket_dict, if_pos hk]
  cases c with
  | pyStr s =>
    have hs1 : s ≠ "move" := fun h => h2 (by rw [h])
    have hs2 : s ≠ "stop" := fun h => h3 (by rw [h])
    simp [executeCommand, h1, hs1, hs2]
  | pyNull => simp [executeCommand, h1]
  | pyBool b => simp [executeCommand, h1]
  | pyNum q => simp [executeCommand, h1]
  | pyList l => simp [executeCommand, h1]
  | pyDict dd => simp [executeCommand, h1]

/-- Witness for C10: the parsed packet `{"command": 1}` (a successfully
parsed command that is neither move nor stop) leaves the state `(5, 3)`
stamped `2` untouched. -/
theorem c10_witness :
    processPacket ⟨100, 1⟩ 9 false (.text (.value (.pyDict [("command", .pyNum 1)])))
        ⟨5, 3, 2⟩
      = .ok (⟨5, 3, 2⟩, []) :=
  c10_unknown ⟨100, 1⟩ 9 false ⟨5, 3, 2⟩ [("command", .pyNum 1)] (.pyNum 1) rfl
    (fun h => PyVal.noConfusion h) (fun h => PyVal.noConfusion h)

end MotorControllerModel
